import Mathlib

/-!
Shallow embedding of the benchmarking scripts
`pandas_polars_performance_compare.py` and
`pandas_polars_performance_compare_2.py`.

Durations and clock readings are modelled as exact rationals.  A measured
operation (a Python zero-argument callable) is modelled by a function
`func : Nat → Except E α` giving the outcome of its k-th invocation overall
(`Except.error` models the call raising a Python exception).  The monotonic
clock `time.perf_counter` is modelled by a sequence `clock : Nat → ℚ` of
successive readings; monotonicity of the real clock becomes an explicit
hypothesis where a claim needs it.
-/

namespace Benchmark

/-- A Python exception escaping `measure_performance`: either an exception
raised by the measured operation itself (`opErr`), or a
`statistics.StatisticsError` raised by one of the statistics calls, carrying
its message. -/
inductive PyError (E : Type) where
  | opErr (e : E)
  | statisticsError (msg : String)
deriving DecidableEq

/-- Exact representation of `math.sqrt` applied to a rational: the value
`√radicand`.  The rationals have no square roots, so the embedding carries
the radicand; on the nonnegative radicands produced here this determines the
square root exactly. -/
structure SqrtRep where
  radicand : ℚ
deriving DecidableEq

/-- Model of `math.sqrt` on the exact rationals (kept symbolic, see
`SqrtRep`). -/
def math.sqrt (q : ℚ) : SqrtRep := ⟨q⟩

/-- Model of `statistics.mean`: the arithmetic mean `sum / n`, raising
`StatisticsError` on empty data (as the stdlib does). -/
def statistics.mean (data : List ℚ) : Except String ℚ :=
  if data.length = 0 then .error "mean requires at least one data point"
  else .ok (data.sum / (data.length : ℚ))

/-- The value `statistics.median` computes on nonempty data: sort, then take
the middle element (odd length) or the average of the two middle elements
(even length). -/
def medianVal (data : List ℚ) : ℚ :=
  let s := data.mergeSort (fun a b => decide (a ≤ b))
  let n := data.length
  if n % 2 = 1 then s.getD (n / 2) 0
  else (s.getD (n / 2 - 1) 0 + s.getD (n / 2) 0) / 2

/-- Model of `statistics.median`: `medianVal` on nonempty data, raising
`StatisticsError` on empty data. -/
def statistics.median (data : List ℚ) : Except String ℚ :=
  if data.length = 0 then .error "no median for empty data"
  else .ok (medianVal data)

/-- The sample variance the stdlib computes inside `statistics.stdev`:
`Σ (x - mean)² / (n - 1)`. -/
def sampleVariance (data : List ℚ) : ℚ :=
  let xbar := data.sum / (data.length : ℚ)
  (data.map (fun x => (x - xbar) ^ 2)).sum / ((data.length : ℚ) - 1)

/-- Model of `statistics.stdev`: the square root of the sample variance,
raising `StatisticsError` when the data has fewer than two points. -/
def statistics.stdev (data : List ℚ) : Except String SqrtRep :=
  if data.length < 2 then .error "stdev requires at least two data points"
  else .ok (math.sqrt (sampleVariance data))

/-- Model of the loop inside `timeit.repeat(func, repeat=k, number=1)`,
started when `i` invocations of `func` have already happened: each iteration
reads the clock, invokes `func` once, reads the clock again, and records the
difference; an exception from `func` propagates at once, aborting the
remaining iterations.  The clock readings bracketing trial `i` are readings
`2*i` and `2*i + 1`.  Returns the number of invocations of `func` actually
performed, paired with either the list of per-trial durations or the
propagated exception. -/
def timeit.repeatAux (func : Nat → Except E α) (clock : Nat → ℚ) :
    Nat → Nat → Nat × Except E (List ℚ)
  | _, 0 => (0, .ok [])
  | i, k + 1 =>
    match func i with
    | .error e => (1, .error e)
    | .ok _ =>
      match timeit.repeatAux func clock (i + 1) k with
      | (c, .error e) => (c + 1, .error e)
      | (c, .ok rest) => (c + 1, .ok ((clock (2 * i + 1) - clock (2 * i)) :: rest))

/-- Model of `timeit.repeat(func, repeat=repeatCnt, number=1)` on a fresh
operation (no prior invocations). -/
def timeit.repeat (func : Nat → Except E α) (clock : Nat → ℚ) (repeatCnt : Nat) :
    Nat × Except E (List ℚ) :=
  timeit.repeatAux func clock 0 repeatCnt

/-- The list of per-trial durations `timeit.repeat` records when no
invocation raises: trial `i` lasts from clock reading `2*i` to clock reading
`2*i + 1`, one duration per invocation. -/
def trialTimes (clock : Nat → ℚ) (n : Nat) : List ℚ :=
  (List.range n).map (fun i => clock (2 * i + 1) - clock (2 * i))

/-- Model of `measure_performance(func, n_runs=50)`:

    times = timeit.repeat(func, repeat=n_runs, number=1)
    mean_time = statistics.mean(times)
    median_time = statistics.median(times)
    std_time = statistics.stdev(times)
    retval = func()
    return retval, mean_time, median_time, std_time

The first component of the result counts every invocation of `func` that
happened (timed trials plus the final `retval = func()` call); the second is
either the returned 4-tuple or the exception that escaped. -/
def measure_performance (func : Nat → Except E α) (clock : Nat → ℚ)
    (n_runs : Nat := 50) : Nat × Except (PyError E) (α × ℚ × ℚ × SqrtRep) :=
  match timeit.repeat func clock n_runs with
  | (c, .error e) => (c, .error (.opErr e))
  | (c, .ok times) =>
    match statistics.mean times with
    | .error m => (c, .error (.statisticsError m))
    | .ok mean_time =>
      match statistics.median times with
      | .error m => (c, .error (.statisticsError m))
      | .ok median_time =>
        match statistics.stdev times with
        | .error m => (c, .error (.statisticsError m))
        | .ok std_time =>
          match func c with
          | .error e => (c + 1, .error (.opErr e))
          | .ok retval => (c + 1, .ok (retval, mean_time, median_time, std_time))

/-- One cell written by `csv.writerow` in the `__main__` block of the first
script: a string label, a duration statistic, or a standard deviation. -/
inductive Cell where
  | str (s : String)
  | num (q : ℚ)
  | dev (d : SqrtRep)
deriving DecidableEq

/-- The `(Library, Operation)` labels of the nine benchmark rows the
`__main__` block writes, in program order. -/
def benchmarkLabels : List (String × String) :=
  [("pandas", "Group By and Aggregate"), ("pandas", "Quantile"),
   ("pandas", "Filter"), ("pandas", "Sort"),
   ("Polars", "Group By and Aggregate"), ("Polars", "Quantile"),
   ("Polars", "Filter"), ("Polars", "Sort - Multithreaded"),
   ("Polars", "Sort - Singlethreaded")]

/-- Model of the rows the `__main__` block of the first script writes to
`performance_results.csv`, parametrized by the `(mean, median, stdev)`
statistics each of its nine `measure_performance` calls returned (the
dataframe operations being timed are external library calls).  The block
first writes the fixed header row and then one row per benchmark, in
program order. -/
def performanceResultsRows (stats : List (ℚ × ℚ × SqrtRep)) : List (List Cell) :=
  [Cell.str "Library", Cell.str "Operation", Cell.str "Mean Time [s]",
   Cell.str "Median Time [s]", Cell.str "Standard Deviation [s]"] ::
  (benchmarkLabels.zip stats).map
    (fun p => [Cell.str p.1.1, Cell.str p.1.2, Cell.num p.2.1,
               Cell.num p.2.2.1, Cell.dev p.2.2.2])

/-- The local state of one use of the `measure_time` context manager of the
second script: the generator frame's `start_time` and `end_time`
variables. -/
structure MeasureTimeState where
  start_time : ℚ
  end_time : ℚ
deriving DecidableEq

/-- Entering the `with measure_time() as f:` block runs
`start_time = end_time = time.perf_counter()`, with `t` the reading the
clock produced there. -/
def measure_time.enter (t : ℚ) : MeasureTimeState := ⟨t, t⟩

/-- Leaving the block runs `end_time = time.perf_counter()`, with `t` the
reading the clock produced there; `start_time` is unchanged. -/
def measure_time.exitBlock (st : MeasureTimeState) (t : ℚ) : MeasureTimeState :=
  { st with end_time := t }

/-- The callable the context manager yields: `lambda: end_time - start_time`,
reading the generator frame's current variables. -/
def measure_time.elapsed (st : MeasureTimeState) : ℚ :=
  st.end_time - st.start_time

/-- Round-half-to-even on the rationals, the rounding rule of Python's
built-in `round`. -/
def roundHalfEven (q : ℚ) : ℤ :=
  let f := ⌊q⌋
  if q - f < 1 / 2 then f
  else if q - f > 1 / 2 then f + 1
  else if f % 2 = 0 then f else f + 1

/-- Model of Python's `round(x, 2)` on the exact rationals. -/
def pyRound2 (q : ℚ) : ℚ := (roundHalfEven (q * 100) : ℚ) / 100

/-- The speedup cell of one row of the comparison table of the second
script, before string interpolation: the rounded ratio tagged with the
colour/word markup branch taken. -/
inductive SpeedupCell where
  | faster (ratio : ℚ)
  | slower (ratio : ℚ)
  | equal
deriving DecidableEq

/-- Model of the per-row speedup computation of the second script:

    speedup = round(pandas_time / polars_time, 2)
    if polars_time < pandas_time: speedup = f"[green]\x7bspeedup\x7dx faster[/green]"
    elif polars_time > pandas_time: speedup = f"[red]\x7bspeedup\x7dx slower[/red]"
    else: speedup = "Equal"
-/
def speedup (pandas_time polars_time : ℚ) : SpeedupCell :=
  let r := pyRound2 (pandas_time / polars_time)
  if polars_time < pandas_time then .faster r
  else if polars_time > pandas_time then .slower r
  else .equal

/-- Rendering of the speedup cell to the string placed in the table.
Python's decimal display of the rounded float is abstracted by `toString`
on the exact rational; the branch markup and the literal `"Equal"` are as in
the source. -/
def SpeedupCell.render : SpeedupCell → String
  | .faster r => "[green]" ++ toString r ++ "x faster[/green]"
  | .slower r => "[red]" ++ toString r ++ "x slower[/red]"
  | .equal => "Equal"

theorem timeit.repeatAux_ok {E α : Type} (func : Nat → Except E α) (clock : Nat → ℚ)
    (v : Nat → α) (h : ∀ j, func j = .ok (v j)) (k i : Nat) :
    timeit.repeatAux func clock i k =
      (k, .ok ((List.range k).map
        (fun j => clock (2 * (i + j) + 1) - clock (2 * (i + j))))) := by
  induction k generalizing i with
  | zero => simp [timeit.repeatAux]
  | succ k ih =>
    rw [timeit.repeatAux, h i, ih (i + 1)]
    simp only [List.range_succ_eq_map, List.map_cons, List.map_map]
    have hfun : (fun j => clock (2 * (i + 1 + j) + 1) - clock (2 * (i + 1 + j))) =
        ((fun j => clock (2 * (i + j) + 1) - clock (2 * (i + j))) ∘ Nat.succ) := by
      funext j
      simp only [Function.comp_apply, Nat.succ_eq_add_one]
      rw [show i + 1 + j = i + (j + 1) from by omega]
    rw [hfun]
    rfl

theorem timeit.repeat_ok {E α : Type} (func : Nat → Except E α) (clock : Nat → ℚ)
    (v : Nat → α) (h : ∀ j, func j = .ok (v j)) (n : Nat) :
    timeit.repeat func clock n = (n, .ok (trialTimes clock n)) := by
  rw [timeit.repeat, timeit.repeatAux_ok func clock v h n 0, trialTimes]
  simp

theorem timeit.repeatAux_error {E α : Type} (func : Nat → Except E α) (clock : Nat → ℚ)
    (e : E) (k i m : Nat) (hm : m < k)
    (hok : ∀ j, j < m → ∃ w, func (i + j) = .ok w)
    (he : func (i + m) = .error e) :
    timeit.repeatAux func clock i k = (m + 1, .error e) := by
  induction k generalizing i m with
  | zero => exact absurd hm (Nat.not_lt_zero m)
  | succ k ih =>
    cases m with
    | zero =>
      rw [timeit.repeatAux]
      rw [show i + 0 = i from rfl] at he
      rw [he]
    | succ m' =>
      obtain ⟨w, hw⟩ := hok 0 (Nat.succ_pos m')
      rw [show i + 0 = i from rfl] at hw
      rw [timeit.repeatAux, hw,
        ih (i + 1) m' (by omega)
          (fun j hj => by
            obtain ⟨w', hw'⟩ := hok (j + 1) (by omega)
            exact ⟨w', by rwa [show i + 1 + j = i + (j + 1) from by omega]⟩)
          (by rwa [show i + 1 + m' = i + (m' + 1) from by omega])]

theorem trialTimes_length (clock : Nat → ℚ) (n : Nat) :
    (trialTimes clock n).length = n := by
  simp [trialTimes]

theorem measure_performance_ok {E α : Type} (func : Nat → Except E α) (clock : Nat → ℚ)
    (v : Nat → α) (h : ∀ j, func j = .ok (v j)) (n : Nat) (hn : 2 ≤ n) :
    measure_performance func clock n =
      (n + 1, .ok (v n,
        (trialTimes clock n).sum / ((trialTimes clock n).length : ℚ),
        medianVal (trialTimes clock n),
        math.sqrt (sampleVariance (trialTimes clock n)))) := by
  have hlen : (trialTimes clock n).length = n := trialTimes_length clock n
  have h0 : ¬ (trialTimes clock n).length = 0 := by rw [hlen]; omega
  have h2 : ¬ (trialTimes clock n).length < 2 := by rw [hlen]; omega
  rw [measure_performance, timeit.repeat_ok func clock v h n]
  simp only [statistics.mean, statistics.median, statistics.stdev,
    if_neg h0, if_neg h2, h n]

/-- C2: for every trial_count ≥ 2 and every deterministic zero-argument
operation that always returns the same value, `measure_performance` returns
that value as the representative result, obtained from one additional
invocation performed after all timed trials (so `n + 1` invocations in
total). -/
theorem measure_representative_value_from_extra_invocation
    {E α : Type} (func : Nat → Except E α) (clock : Nat → ℚ) (w : α) (n : Nat)
    (hn : 2 ≤ n) (h : ∀ j, func j = .ok w) :
    ∃ m md s, measure_performance func clock n = (n + 1, .ok (w, m, md, s)) :=
  ⟨_, _, _, measure_performance_ok func clock (fun _ => w) h n hn⟩

theorem measure_representative_value_from_extra_invocation_witness :
    ∃ m md s, measure_performance (fun _ => (Except.ok 7 : Except Unit Nat))
      (fun i => (i : ℚ)) 2 = (3, .ok (7, m, md, s)) :=
  measure_representative_value_from_extra_invocation
    (fun _ => Except.ok 7) (fun i => (i : ℚ)) 7 2 (by omega) (fun _ => rfl)

/-- C3: for every trial_count ≥ 2 and every non-raising operation,
`measure_performance` invokes the operation exactly `n` times inside
`timeit.repeat` (the timed trials) and exactly `n + 1` times in total. -/
theorem measure_invocation_counts
    {E α : Type} (func : Nat → Except E α) (clock : Nat → ℚ) (v : Nat → α)
    (n : Nat) (hn : 2 ≤ n) (h : ∀ j, func j = .ok (v j)) :
    (timeit.repeat func clock n).1 = n ∧
    (measure_performance func clock n).1 = n + 1 := by
  refine ⟨?_, ?_⟩
  · rw [timeit.repeat_ok func clock v h n]
  · rw [measure_performance_ok func clock v h n hn]

theorem measure_invocation_counts_witness :
    (timeit.repeat (fun j => (Except.ok j : Except Unit Nat)) (fun i => (i : ℚ)) 2).1 = 2 ∧
    (measure_performance (fun j => (Except.ok j : Except Unit Nat)) (fun i => (i : ℚ)) 2).1 = 3 :=
  measure_invocation_counts (fun j => Except.ok j) (fun i => (i : ℚ))
    (fun j => j) 2 (by omega) (fun _ => rfl)

/-- C4: if the operation raises an exception on its `m`-th invocation
(`m < n` timed trials remaining to be run), `measure_performance`
propagates that same exception unmodified and immediately: exactly `m + 1`
invocations happen in total and the result is the operation's own error,
unwrapped and unretried. -/
theorem measure_propagates_operation_error
    {E α : Type} (func : Nat → Except E α) (clock : Nat → ℚ) (n m : Nat) (e : E)
    (hm : m < n) (hok : ∀ j, j < m → ∃ w, func j = .ok w)
    (he : func m = .error e) :
    measure_performance func clock n = (m + 1, .error (.opErr e)) := by
  have hrep := timeit.repeatAux_error func clock e n 0 m hm
    (fun j hj => by simpa using hok j hj) (by simpa using he)
  rw [measure_performance, timeit.repeat, hrep]

theorem measure_propagates_operation_error_witness :
    measure_performance (fun _ => (Except.error "boom" : Except String Nat))
      (fun i => (i : ℚ)) 3 = (1, .error (.opErr "boom")) :=
  measure_propagates_operation_error (fun _ => Except.error "boom") (fun i => (i : ℚ))
    3 0 "boom" (by omega) (fun j hj => absurd hj (by omega)) rfl

/-- C5: for trial_count ≥ 2 and a non-raising operation, the tuple
`measure_performance` returns consists of the representative value
together with exactly the arithmetic mean, the median, and the sample
standard deviation of the `n` individually recorded elapsed times. -/
theorem measure_result_statistics
    {E α : Type} (func : Nat → Except E α) (clock : Nat → ℚ) (v : Nat → α)
    (n : Nat) (hn : 2 ≤ n) (h : ∀ j, func j = .ok (v j)) :
    (trialTimes clock n).length = n ∧
    (measure_performance func clock n).2 =
      .ok (v n, (trialTimes clock n).sum / ((trialTimes clock n).length : ℚ),
        medianVal (trialTimes clock n),
        math.sqrt (sampleVariance (trialTimes clock n))) := by
  refine ⟨trialTimes_length clock n, ?_⟩
  rw [measure_performance_ok func clock v h n hn]

theorem measure_result_statistics_witness :
    (trialTimes (fun i => (i : ℚ)) 2).length = 2 ∧
    (measure_performance (fun j => (Except.ok j : Except Unit Nat)) (fun i => (i : ℚ)) 2).2 =
      .ok (2, (trialTimes (fun i => (i : ℚ)) 2).sum / ((trialTimes (fun i => (i : ℚ)) 2).length : ℚ),
        medianVal (trialTimes (fun i => (i : ℚ)) 2),
        math.sqrt (sampleVariance (trialTimes (fun i => (i : ℚ)) 2))) :=
  measure_result_statistics (fun j => Except.ok j) (fun i => (i : ℚ))
    (fun j => j) 2 (by omega) (fun _ => rfl)

/-- C7: `measure_performance` called without `n_runs` uses the default 50,
the default is positive, and for a non-raising operation the parameter
counts exactly the independent timed invocations `timeit.repeat`
performs. -/
theorem measure_default_trial_count_fifty
    {E α : Type} (func : Nat → Except E α) (clock : Nat → ℚ) (v : Nat → α)
    (h : ∀ j, func j = .ok (v j)) :
    measure_performance func clock = measure_performance func clock 50 ∧
    0 < (50 : Nat) ∧
    ∀ n, (timeit.repeat func clock n).1 = n := by
  refine ⟨rfl, by omega, fun n => ?_⟩
  rw [timeit.repeat_ok func clock v h n]

theorem measure_default_trial_count_fifty_witness :
    measure_performance (fun j => (Except.ok j : Except Unit Nat)) (fun i => (i : ℚ)) =
      measure_performance (fun j => (Except.ok j : Except Unit Nat)) (fun i => (i : ℚ)) 50 ∧
    0 < (50 : Nat) ∧
    ∀ n, (timeit.repeat (fun j => (Except.ok j : Except Unit Nat)) (fun i => (i : ℚ)) n).1 = n :=
  measure_default_trial_count_fifty (fun j => Except.ok j) (fun i => (i : ℚ))
    (fun j => j) (fun _ => rfl)

/-- C6: for a non-raising operation, `timeit.repeat` records one elapsed
time per invocation individually (not cumulatively): the list of recorded
times has length `n`, its `i`-th entry is the difference of the two clock
readings bracketing exactly the `i`-th invocation, and when the clock is
monotone (the guarantee of `time.perf_counter`) every recorded time is
nonnegative. -/
theorem trial_times_recorded_individually_monotonic
    {E α : Type} (func : Nat → Except E α) (clock : Nat → ℚ) (v : Nat → α)
    (n : Nat) (h : ∀ j, func j = .ok (v j)) :
    timeit.repeat func clock n = (n, .ok (trialTimes clock n)) ∧
    (trialTimes clock n).length = n ∧
    (∀ i, i < n → (trialTimes clock n).getD i 0 = clock (2 * i + 1) - clock (2 * i)) ∧
    (Monotone clock → ∀ i, i < n → 0 ≤ (trialTimes clock n).getD i 0) := by
  have hget : ∀ i, i < n →
      (trialTimes clock n).getD i 0 = clock (2 * i + 1) - clock (2 * i) := by
    intro i hi
    simp [trialTimes, List.getD_eq_getElem?_getD, List.getElem?_range, hi]
  refine ⟨timeit.repeat_ok func clock v h n, trialTimes_length clock n, hget, ?_⟩
  intro hmono i hi
  rw [hget i hi, sub_nonneg]
  exact hmono (Nat.le_succ (2 * i))

theorem trial_times_recorded_individually_monotonic_witness :
    timeit.repeat (fun j => (Except.ok j : Except Unit Nat)) (fun i => (i : ℚ)) 2 =
      (2, .ok (trialTimes (fun i => (i : ℚ)) 2)) ∧
    (trialTimes (fun i => (i : ℚ)) 2).length = 2 ∧
    ((trialTimes (fun i => (i : ℚ)) 2).getD 1 0 =
      (fun i => (i : ℚ)) 3 - (fun i => (i : ℚ)) 2) ∧
    0 ≤ (trialTimes (fun i => (i : ℚ)) 2).getD 1 0 := by
  have h := trial_times_recorded_individually_monotonic
    (fun j => (Except.ok j : Except Unit Nat)) (fun i => (i : ℚ)) (fun j => j) 2 (fun _ => rfl)
  exact ⟨h.1, h.2.1, by simpa using h.2.2.1 1 (by omega),
    h.2.2.2 (fun a b hab => by show (a : ℚ) ≤ (b : ℚ); exact_mod_cast hab) 1 (by omega)⟩

/-- C1 (counterexample to the claim as stated): with `trial_count = 1` the
harness performs one timed invocation of the operation before the error is
raised — not zero — and the error is the statistics library's
`StatisticsError`, not a harness-defined `InsufficientTrialsError`. -/
theorem measure_one_trial_invokes_once_before_error :
    (measure_performance (fun _ => (Except.ok 0 : Except Unit Nat)) (fun i => (i : ℚ)) 1).1 = 1 ∧
    (measure_performance (fun _ => (Except.ok 0 : Except Unit Nat)) (fun i => (i : ℚ)) 1).2 =
      .error (.statisticsError "stdev requires at least two data points") ∧
    (1 : Nat) ≠ 0 :=
  ⟨rfl, rfl, by omega⟩

/-- C1 (amended): for every `trial_count < 2` and non-raising operation,
`measure_performance` lets a `statistics.StatisticsError` escape — an error
of the statistics library, there being no harness-defined
`InsufficientTrialsError` — after exactly `trial_count` timed invocations
of the operation: one timed invocation when `trial_count = 1`, zero when
`trial_count = 0`. -/
theorem measure_raises_statistics_error_when_fewer_than_two_trials
    {E α : Type} (func : Nat → Except E α) (clock : Nat → ℚ) (v : Nat → α)
    (n : Nat) (hn : n < 2) (h : ∀ j, func j = .ok (v j)) :
    (measure_performance func clock n).1 = n ∧
    ∃ msg, (measure_performance func clock n).2 = .error (.statisticsError msg) := by
  have hrep := timeit.repeat_ok func clock v h n
  interval_cases n
  · exact ⟨rfl, "mean requires at least one data point", rfl⟩
  · refine ⟨?_, "stdev requires at least two data points", ?_⟩
    · rw [measure_performance, hrep]
      rfl
    · rw [measure_performance, hrep]
      rfl

theorem measure_raises_statistics_error_when_fewer_than_two_trials_witness :
    (measure_performance (fun j => (Except.ok j : Except Unit Nat)) (fun i => (i : ℚ)) 1).1 = 1 ∧
    ∃ msg, (measure_performance (fun j => (Except.ok j : Except Unit Nat))
      (fun i => (i : ℚ)) 1).2 = .error (.statisticsError msg) :=
  measure_raises_statistics_error_when_fewer_than_two_trials
    (fun j => Except.ok j) (fun i => (i : ℚ)) (fun j => j) 1 (by omega) (fun _ => rfl)

/-- C8: whatever statistics the nine benchmarks produced, the first row the
reporting step writes to the results file is the fixed header
`Library, Operation, Mean Time [s], Median Time [s], Standard Deviation [s]`,
and every later row is a benchmark result row labelled from
`benchmarkLabels`. -/
theorem results_file_header_first (stats : List (ℚ × ℚ × SqrtRep)) :
    (performanceResultsRows stats).head? =
      some [Cell.str "Library", Cell.str "Operation", Cell.str "Mean Time [s]",
        Cell.str "Median Time [s]", Cell.str "Standard Deviation [s]"] ∧
    ∀ r ∈ (performanceResultsRows stats).tail, ∃ lib op m md sd,
      (lib, op) ∈ benchmarkLabels ∧
      r = [Cell.str lib, Cell.str op, Cell.num m, Cell.num md, Cell.dev sd] := by
  refine ⟨rfl, ?_⟩
  intro r hr
  simp only [performanceResultsRows, List.tail_cons, List.mem_map] at hr
  obtain ⟨⟨⟨lib, op⟩, m, md, sd⟩, hp, rfl⟩ := hr
  exact ⟨lib, op, m, md, sd, (List.of_mem_zip hp).1, rfl⟩

theorem results_file_header_first_witness :
    (performanceResultsRows [(1, 1, ⟨0⟩)]).head? =
      some [Cell.str "Library", Cell.str "Operation", Cell.str "Mean Time [s]",
        Cell.str "Median Time [s]", Cell.str "Standard Deviation [s]"] ∧
    ∃ lib op m md sd, (lib, op) ∈ benchmarkLabels ∧
      [Cell.str "pandas", Cell.str "Group By and Aggregate", Cell.num 1,
        Cell.num 1, Cell.dev ⟨0⟩] =
        [Cell.str lib, Cell.str op, Cell.num m, Cell.num md, Cell.dev sd] := by
  have h := results_file_header_first [(1, 1, ⟨0⟩)]
  refine ⟨h.1, h.2 _ ?_⟩
  simp [performanceResultsRows, benchmarkLabels]

/-- C9: the callable `measure_time` yields returns `0` whenever it is
called before the with-block exits (both frame variables hold the entry
reading), and after the block exits it returns the difference between the
exit and entry `perf_counter` readings, nonnegative whenever the later
reading is at least the earlier one (the monotonicity `perf_counter`
guarantees). -/
theorem measure_time_elapsed_spec (t t' : ℚ) :
    measure_time.elapsed (measure_time.enter t) = 0 ∧
    (t ≤ t' →
      measure_time.elapsed (measure_time.exitBlock (measure_time.enter t) t') = t' - t ∧
      0 ≤ measure_time.elapsed (measure_time.exitBlock (measure_time.enter t) t')) := by
  refine ⟨?_, fun hle => ⟨rfl, ?_⟩⟩
  · simp [measure_time.elapsed, measure_time.enter]
  · simpa [measure_time.elapsed, measure_time.exitBlock, measure_time.enter,
      sub_nonneg] using hle

theorem measure_time_elapsed_spec_witness :
    measure_time.elapsed (measure_time.enter 1) = 0 ∧
    measure_time.elapsed (measure_time.exitBlock (measure_time.enter 1) 3) = 2 ∧
    0 ≤ measure_time.elapsed (measure_time.exitBlock (measure_time.enter 1) 3) := by
  have h := measure_time_elapsed_spec 1 3
  have h2 := h.2 (by norm_num)
  exact ⟨h.1, by rw [h2.1]; norm_num, h2.2⟩

/-- C10: for positive `polars_time`, the speedup cell holds the rounded
ratio `round(pandas_time / polars_time, 2)` tagged `faster` exactly when
`polars_time < pandas_time` and `slower` exactly when
`polars_time > pandas_time` — so a slower row shows the ratio
`pandas_time / polars_time`, which is then below 1, not a slowdown
factor — and renders to the literal `"Equal"` when the two times are
exactly equal. -/
theorem speedup_cell_spec (pandas_time polars_time : ℚ) (hq : 0 < polars_time) :
    (speedup pandas_time polars_time =
        .faster (pyRound2 (pandas_time / polars_time)) ↔
      polars_time < pandas_time) ∧
    (speedup pandas_time polars_time =
        .slower (pyRound2 (pandas_time / polars_time)) ↔
      pandas_time < polars_time) ∧
    (pandas_time = polars_time → (speedup pandas_time polars_time).render = "Equal") ∧
    (pandas_time < polars_time → pandas_time / polars_time < 1) := by
  refine ⟨?_, ?_, ?_, fun hlt => (div_lt_one hq).mpr hlt⟩
  · rcases lt_trichotomy polars_time pandas_time with h | h | h
    · simp [speedup, h]
    · simp [speedup, h, lt_irrefl]
    · simp [speedup, h, asymm h]
  · rcases lt_trichotomy polars_time pandas_time with h | h | h
    · simp [speedup, h, asymm h]
    · simp [speedup, h, lt_irrefl]
    · simp [speedup, h, asymm h]
  · intro heq
    simp [speedup, heq, lt_irrefl, SpeedupCell.render]

theorem speedup_cell_spec_witness :
    (speedup 3 2 = .faster (pyRound2 (3 / 2)) ↔ (2 : ℚ) < 3) ∧
    (speedup 3 2 = .slower (pyRound2 (3 / 2)) ↔ (3 : ℚ) < 2) ∧
    ((3 : ℚ) = 2 → (speedup 3 2).render = "Equal") ∧
    ((3 : ℚ) < 2 → (3 : ℚ) / 2 < 1) :=
  speedup_cell_spec 3 2 (by norm_num)

end Benchmark
